import Mathlib

/-!
Verification of the trigger-and-window state machine of
`MPU_Gait_Classification.ino` (a motion-triggered gait-classification sketch).

The sketch keeps one global counter `samplesRead`, initialised to
`numSamples` (the IDLE sentinel).  `loop()` first busy-polls the IMU while
`samplesRead == numSamples`, and when the L1 norm of the acceleration
reaches `accelerationThreshold` it resets `samplesRead` to 0; it then polls
one sample per iteration while `samplesRead < numSamples`, writing the three
gyroscope channels of each sample at flattened indices
`samplesRead*3 + 0/1/2` of the classifier's input tensor; when `samplesRead`
reaches `numSamples` it calls `Invoke()` exactly once — on failure it prints
`"Invoke failed!"` and spins forever, on success it prints one
`"<label>: <score to 6 decimals>"` line per gait class followed by a blank
line.

The embedding below models one sensor poll as one `step` of a machine whose
state carries `samplesRead`, the flattened input buffer, a halted flag, the
serial log, and instrumentation counters for the number of `Invoke` calls
and the number of sensor polls.  Sensor floats are modelled as rationals.
The TensorFlow Lite engine is an external collaborator and is passed in as
a function from the flattened input window to an optional output tensor
(`none` modelling a non-`kTfLiteOk` invoke status).
-/

namespace MPUGait

/-- Source line 31: `const float accelerationThreshold = 0;` — the default
trigger threshold, in g. -/
def accelerationThreshold : ℚ := 0

/-- Source line 32: `const int numSamples = 200;` — rows per window. -/
def numSamples : ℕ := 200

/-- Source line 64: `#define NUM_GAITS 6`. -/
def NUM_GAITS : ℕ := 6

/-- Source lines 55-62: the fixed label table mapping class index to name. -/
def GAITS : List String :=
  ["Healthy", "Stage 1", "Stage 2", "Stage 3", "Standing", "Turning"]

/-- One IMU poll result (`sensors_event_t` pair): three acceleration channels
and three gyroscope channels.  Floats are modelled as rationals. -/
structure Sample where
  ax : ℚ
  ay : ℚ
  az : ℚ
  gx : ℚ
  gy : ℚ
  gz : ℚ
deriving DecidableEq

/-- The observable state of the sketch between two sensor polls:
`samplesRead` (the global counter, `= numSamples` meaning IDLE),
`buf` (the flattened `tflInputTensor->data.f` region),
`halted` (stuck in a `while (1);` loop),
`log` (lines printed over Serial), and instrumentation counters
`invokes` (number of `Invoke()` calls) and `polled` (number of
`mpu.getEvent` polls). -/
structure Machine where
  samplesRead : ℕ
  buf : ℕ → ℚ
  halted : Bool
  log : List String
  invokes : ℕ
  polled : ℕ

/-- The state on entry to `loop()` the first time: source line 34 initialises
`samplesRead = numSamples`, and the tensor arena is zero-initialised. -/
def initMachine : Machine :=
  { samplesRead := numSamples, buf := fun _ => 0, halted := false,
    log := [], invokes := 0, polled := 0 }

/-- C `fabs`, written out on ℚ. -/
def fabs (q : ℚ) : ℚ := if q < 0 then -q else q

/-- Source line 119: `float aSum = fabs(aX) + fabs(aY) + fabs(aZ);` -/
def aSum (x : Sample) : ℚ := fabs x.ax + fabs x.ay + fabs x.az

/-- Source lines 140-142: the three stores
`tflInputTensor->data.f[samplesRead * 3 + k] = g{X,Y,Z}` for row `r`. -/
def writeRow (b : ℕ → ℚ) (r : ℕ) (x : Sample) : ℕ → ℚ := fun j =>
  if j = 3 * r then x.gx
  else if j = 3 * r + 1 then x.gy
  else if j = 3 * r + 2 then x.gz
  else b j

/-- Iterated `writeRow`: write the rows of `xs` starting at row `r`. -/
def writeRows (b : ℕ → ℚ) (r : ℕ) : List Sample → (ℕ → ℚ)
  | [] => b
  | x :: xs => writeRows (writeRow b r x) (r + 1) xs

/-- The flattened input window the classifier reads: the first
`3 * numSamples` entries of the input tensor, row-major. -/
def window (b : ℕ → ℚ) : List ℚ :=
  List.ofFn (fun i : Fin (3 * numSamples) => b i.val)

/-- Left-pad the decimal digits of `n` with zeros to width 6. -/
def pad6 (n : ℕ) : String :=
  let t := Nat.repr n
  String.mk (List.replicate (6 - t.length) '0') ++ t

/-- `Serial.println(q, 6)` (Arduino `Print::printFloat` with 6 digits):
print a minus sign for negatives, then round the absolute value by adding
`0.5 * 10^-6` and print the integer part, a dot, and 6 fractional digits. -/
def fmt6 (q : ℚ) : String :=
  let sign := if q < 0 then "-" else ""
  let a := if q < 0 then -q else q
  let r := a + 1 / 2000000
  let ip := (⌊r⌋).toNat
  let fracDigits := (⌊(r - (ip : ℚ)) * 1000000⌋).toNat
  sign ++ Nat.repr ip ++ "." ++ pad6 fracDigits

/-- Source lines 157-162: the per-episode report — for each `i < NUM_GAITS`
one line `GAITS[i] ++ ": " ++` the score printed to 6 decimals, then one
blank line. -/
def reportLines (out : ℕ → ℚ) : List String :=
  ((List.range NUM_GAITS).map fun i => GAITS.getD i "" ++ ": " ++ fmt6 (out i))
    ++ [""]

/-- One sensor poll of `loop()` (source lines 108-164), for trigger threshold
`th` and external inference engine `cl` (mapping the flattened input window
to `some` output tensor, or `none` for a failed `Invoke`).

If `samplesRead = numSamples` the poll happens inside the wait loop (lines
112-127): the trigger is evaluated and on `aSum ≥ th` the counter resets
to 0.  Otherwise the poll happens inside the collection loop (lines
131-164): the gyroscope channels are stored at row `samplesRead`, the
counter increments, and if it reached `numSamples` the engine is invoked —
failure prints `"Invoke failed!"` and halts forever (lines 150-154),
success prints the report (lines 157-162). -/
def step (th : ℚ) (cl : List ℚ → Option (ℕ → ℚ)) (s : Machine) (x : Sample) :
    Machine :=
  if s.samplesRead = numSamples then
    if aSum x ≥ th then
      { s with samplesRead := 0, polled := s.polled + 1 }
    else
      { s with polled := s.polled + 1 }
  else
    let b := writeRow s.buf s.samplesRead x
    let n := s.samplesRead + 1
    if n = numSamples then
      match cl (window b) with
      | none =>
          { s with samplesRead := n, buf := b, halted := true,
                   log := s.log ++ ["Invoke failed!"],
                   invokes := s.invokes + 1, polled := s.polled + 1 }
      | some out =>
          { s with samplesRead := n, buf := b,
                   log := s.log ++ reportLines out,
                   invokes := s.invokes + 1, polled := s.polled + 1 }
    else
      { s with samplesRead := n, buf := b, polled := s.polled + 1 }

/-- Run the machine over a finite stream of polled samples.  A halted
machine (stuck in `while (1);`) never polls again. -/
def run (th : ℚ) (cl : List ℚ → Option (ℕ → ℚ)) :
    Machine → List Sample → Machine
  | s, [] => s
  | s, x :: xs => if s.halted then s else run th cl (step th cl s x) xs

/-- The startup environment of `setup()` (source lines 66-106): whether
`mpu.begin()` succeeds, the model blob's schema version, the linked
library's `TFLITE_SCHEMA_VERSION`, and the length of the model's output
tensor.  The sketch stores the output-tensor pointer but never inspects its
length, so `outputLen` is carried here only to record that `setup` does not
depend on it. -/
structure SetupCfg where
  imuOk : Bool
  modelVersion : ℕ
  schemaVersion : ℕ
  outputLen : ℕ

/-- Outcome of `setup()`: either stuck in `while (1);` after printing an
error line, or ready to enter `loop()`. -/
inductive SetupResult
  | haltedWith (msg : String)
  | ok
deriving DecidableEq

/-- `setup()` (source lines 66-106): halt with `"Failed to initialize IMU!"`
if `mpu.begin()` fails (lines 72-75), halt with `"Model schema mismatch!"`
if the model's version differs from the library schema version (lines
91-95), otherwise proceed.  The success-path range-configuration printouts
(thin I/O glue) are elided. -/
def setup (c : SetupCfg) : SetupResult :=
  if c.imuOk = false then .haltedWith "Failed to initialize IMU!"
  else if c.modelVersion ≠ c.schemaVersion then .haltedWith "Model schema mismatch!"
  else .ok

/-- Whole-sketch behaviour on a finite poll stream: run `setup()` once; on
failure the process is halted with only the error line printed and no poll
ever issued; on success, `loop()` consumes the stream from `initMachine`. -/
def program (c : SetupCfg) (th : ℚ) (cl : List ℚ → Option (ℕ → ℚ))
    (xs : List Sample) : Machine :=
  match setup c with
  | .haltedWith m => { initMachine with halted := true, log := [m] }
  | .ok => run th cl initMachine xs

/-- The always-succeeding engine returning all-zero scores (used for
concrete executions). -/
def clZero : List ℚ → Option (ℕ → ℚ) := fun _ => some fun _ => 0

/-- An always-failing engine (used for concrete executions of the
`Invoke failed!` path). -/
def clFail : List ℚ → Option (ℕ → ℚ) := fun _ => none

/-- An all-zero polled sample. -/
def sampleZero : Sample := ⟨0, 0, 0, 0, 0, 0⟩

lemma fabs_eq_abs (q : ℚ) : fabs q = |q| := by
  unfold fabs
  rcases lt_or_le q 0 with h | h
  · rw [if_pos h, abs_of_neg h]
  · rw [if_neg (not_lt.mpr h), abs_of_nonneg h]

lemma aSum_eq_abs (x : Sample) : aSum x = |x.ax| + |x.ay| + |x.az| := by
  unfold aSum
  rw [fabs_eq_abs, fabs_eq_abs, fabs_eq_abs]

lemma step_idle_trigger (th : ℚ) (cl : List ℚ → Option (ℕ → ℚ)) (s : Machine)
    (x : Sample) (h1 : s.samplesRead = numSamples) (h2 : aSum x ≥ th) :
    step th cl s x = { s with samplesRead := 0, polled := s.polled + 1 } := by
  simp [step, h1, h2]

lemma step_idle_skip (th : ℚ) (cl : List ℚ → Option (ℕ → ℚ)) (s : Machine)
    (x : Sample) (h1 : s.samplesRead = numSamples) (h2 : ¬ aSum x ≥ th) :
    step th cl s x = { s with polled := s.polled + 1 } := by
  simp [step, h1, h2]

lemma step_fill_mid (th : ℚ) (cl : List ℚ → Option (ℕ → ℚ)) (s : Machine)
    (x : Sample) (h1 : s.samplesRead ≠ numSamples)
    (h2 : s.samplesRead + 1 ≠ numSamples) :
    step th cl s x = { s with samplesRead := s.samplesRead + 1,
                              buf := writeRow s.buf s.samplesRead x,
                              polled := s.polled + 1 } := by
  simp [step, h1, h2]

lemma step_fill_invoke_ok (th : ℚ) (cl : List ℚ → Option (ℕ → ℚ)) (s : Machine)
    (x : Sample) (out : ℕ → ℚ) (h1 : s.samplesRead ≠ numSamples)
    (h2 : s.samplesRead + 1 = numSamples)
    (hcl : cl (window (writeRow s.buf s.samplesRead x)) = some out) :
    step th cl s x = { s with samplesRead := s.samplesRead + 1,
                              buf := writeRow s.buf s.samplesRead x,
                              log := s.log ++ reportLines out,
                              invokes := s.invokes + 1,
                              polled := s.polled + 1 } := by
  simp [step, h1, h2, hcl]

lemma step_fill_invoke_fail (th : ℚ) (cl : List ℚ → Option (ℕ → ℚ))
    (s : Machine) (x : Sample) (h1 : s.samplesRead ≠ numSamples)
    (h2 : s.samplesRead + 1 = numSamples)
    (hcl : cl (window (writeRow s.buf s.samplesRead x)) = none) :
    step th cl s x = { s with samplesRead := s.samplesRead + 1,
                              buf := writeRow s.buf s.samplesRead x,
                              halted := true,
                              log := s.log ++ ["Invoke failed!"],
                              invokes := s.invokes + 1,
                              polled := s.polled + 1 } := by
  simp [step, h1, h2, hcl]

lemma run_cons (th : ℚ) (cl : List ℚ → Option (ℕ → ℚ)) (s : Machine)
    (x : Sample) (xs : List Sample) :
    run th cl s (x :: xs) =
      if s.halted then s else run th cl (step th cl s x) xs := rfl

lemma run_of_halted (th : ℚ) (cl : List ℚ → Option (ℕ → ℚ)) (s : Machine)
    (h : s.halted = true) : ∀ xs : List Sample, run th cl s xs = s
  | [] => rfl
  | _ :: _ => by rw [run_cons, if_pos h]

lemma writeRow_lt (b : ℕ → ℚ) (r : ℕ) (x : Sample) (j : ℕ) (h : j < 3 * r) :
    writeRow b r x j = b j := by
  unfold writeRow
  rw [if_neg (by omega), if_neg (by omega), if_neg (by omega)]

lemma writeRow_ge (b : ℕ → ℚ) (r : ℕ) (x : Sample) (j : ℕ)
    (h : 3 * r + 3 ≤ j) : writeRow b r x j = b j := by
  unfold writeRow
  rw [if_neg (by omega), if_neg (by omega), if_neg (by omega)]

lemma writeRow_vals (b : ℕ → ℚ) (r : ℕ) (x : Sample) :
    writeRow b r x (3 * r) = x.gx ∧ writeRow b r x (3 * r + 1) = x.gy ∧
      writeRow b r x (3 * r + 2) = x.gz := by
  unfold writeRow
  refine ⟨by rw [if_pos rfl], ?_, ?_⟩
  · rw [if_neg (by omega), if_pos rfl]
  · rw [if_neg (by omega), if_neg (by omega), if_pos rfl]

lemma writeRows_lt (xs : List Sample) : ∀ (b : ℕ → ℚ) (r j : ℕ), j < 3 * r →
    writeRows b r xs j = b j := by
  induction xs with
  | nil => intro b r j _; rfl
  | cons x xs ih =>
    intro b r j h
    show writeRows (writeRow b r x) (r + 1) xs j = b j
    rw [ih (writeRow b r x) (r + 1) j (by omega), writeRow_lt b r x j h]

lemma writeRows_get (xs : List Sample) : ∀ (b : ℕ → ℚ) (r i : ℕ)
    (hi : i < xs.length),
    writeRows b r xs (3 * (r + i)) = (xs.get ⟨i, hi⟩).gx
    ∧ writeRows b r xs (3 * (r + i) + 1) = (xs.get ⟨i, hi⟩).gy
    ∧ writeRows b r xs (3 * (r + i) + 2) = (xs.get ⟨i, hi⟩).gz := by
  induction xs with
  | nil => intro b r i hi; exact absurd hi (by simp)
  | cons x xs ih =>
    intro b r i hi
    cases i with
    | zero =>
      have e : r + 0 = r := by omega
      rw [e]
      refine ⟨?_, ?_, ?_⟩
      · show writeRows (writeRow b r x) (r + 1) xs (3 * r) = x.gx
        rw [writeRows_lt xs (writeRow b r x) (r + 1) (3 * r) (by omega)]
        exact (writeRow_vals b r x).1
      · show writeRows (writeRow b r x) (r + 1) xs (3 * r + 1) = x.gy
        rw [writeRows_lt xs (writeRow b r x) (r + 1) (3 * r + 1) (by omega)]
        exact (writeRow_vals b r x).2.1
      · show writeRows (writeRow b r x) (r + 1) xs (3 * r + 2) = x.gz
        rw [writeRows_lt xs (writeRow b r x) (r + 1) (3 * r + 2) (by omega)]
        exact (writeRow_vals b r x).2.2
    | succ i =>
      have e : r + (i + 1) = (r + 1) + i := by omega
      rw [e]
      exact ih (writeRow b r x) (r + 1) i (by simpa using hi)

lemma run_fill_under (th : ℚ) (cl : List ℚ → Option (ℕ → ℚ))
    (xs : List Sample) : ∀ s : Machine, s.halted = false →
    s.samplesRead + xs.length < numSamples →
    ((run th cl s xs).samplesRead = s.samplesRead + xs.length
     ∧ (run th cl s xs).buf = writeRows s.buf s.samplesRead xs
     ∧ (run th cl s xs).invokes = s.invokes
     ∧ (run th cl s xs).halted = false
     ∧ (run th cl s xs).log = s.log
     ∧ (run th cl s xs).polled = s.polled + xs.length) := by
  induction xs with
  | nil =>
    intro s hh _
    simp [run, writeRows, hh]
  | cons x xs ih =>
    intro s hh hlt
    have hlen : (x :: xs).length = xs.length + 1 := by simp
    rw [hlen] at hlt
    have h1 : s.samplesRead ≠ numSamples := by omega
    have h2 : s.samplesRead + 1 ≠ numSamples := by omega
    rw [run_cons, if_neg (by simp [hh]),
        step_fill_mid th cl s x h1 h2]
    have := ih { s with samplesRead := s.samplesRead + 1,
                        buf := writeRow s.buf s.samplesRead x,
                        polled := s.polled + 1 } (by simp [hh]) (by simp; omega)
    simp only at this
    obtain ⟨e1, e2, e3, e4, e5, e6⟩ := this
    refine ⟨?_, ?_, e3, e4, e5, ?_⟩
    · rw [e1]; simp; omega
    · rw [e2]; rfl
    · rw [e6]; simp; omega

lemma run_fill_exact (th : ℚ) (cl : List ℚ → Option (ℕ → ℚ))
    (xs : List Sample) : ∀ s : Machine, s.halted = false → xs ≠ [] →
    s.samplesRead + xs.length = numSamples →
    ((run th cl s xs).samplesRead = numSamples
     ∧ (run th cl s xs).buf = writeRows s.buf s.samplesRead xs
     ∧ (run th cl s xs).invokes = s.invokes + 1
     ∧ (run th cl s xs).halted =
         ((cl (window (writeRows s.buf s.samplesRead xs))).isNone)
     ∧ (run th cl s xs).polled = s.polled + xs.length) := by
  induction xs with
  | nil => intro s _ hne _; exact absurd rfl hne
  | cons x xs ih =>
    intro s hh _ hlen
    cases xs with
    | nil =>
      simp only [List.length_cons, List.length_nil, Nat.zero_add] at hlen
      have h1 : s.samplesRead ≠ numSamples := by omega
      rw [run_cons, if_neg (by simp [hh])]
      have hrw : writeRows s.buf s.samplesRead [x] =
          writeRow s.buf s.samplesRead x := rfl
      cases hcl : cl (window (writeRow s.buf s.samplesRead x)) with
      | none =>
        rw [show run th cl (step th cl s x) [] = step th cl s x from rfl,
            step_fill_invoke_fail th cl s x h1 hlen hcl]
        exact ⟨by simpa using hlen, by simp [hrw], by simp,
               by simp [hrw, hcl], by simp⟩
      | some out =>
        rw [show run th cl (step th cl s x) [] = step th cl s x from rfl,
            step_fill_invoke_ok th cl s x out h1 hlen hcl]
        exact ⟨by simpa using hlen, by simp [hrw], by simp,
               by simp [hrw, hcl, hh], by simp⟩
    | cons y ys =>
      simp only [List.length_cons] at hlen
      have h1 : s.samplesRead ≠ numSamples := by omega
      have h2 : s.samplesRead + 1 ≠ numSamples := by omega
      rw [run_cons, if_neg (by simp [hh]), step_fill_mid th cl s x h1 h2]
      have := ih { s with samplesRead := s.samplesRead + 1,
                          buf := writeRow s.buf s.samplesRead x,
                          polled := s.polled + 1 }
        (by simp [hh]) (by simp) (by simp; omega)
      simp only at this
      obtain ⟨e1, e2, e3, e4, e5⟩ := this
      have hrw : writeRows (writeRow s.buf s.samplesRead x)
          (s.samplesRead + 1) (y :: ys) =
          writeRows s.buf s.samplesRead (x :: y :: ys) := rfl
      refine ⟨e1, ?_, e3, ?_, ?_⟩
      · rw [e2]; exact hrw
      · rw [e4, hrw]
      · rw [e5]; simp; omega

lemma numSamples_ne_zero : numSamples ≠ 0 := by norm_num [numSamples]

/-- C3: for every polled sample, the trigger fires (an episode starts: the
sample counter resets to 0) if and only if the L1 norm
`|ax| + |ay| + |az|` of the sample's acceleration channels is at least the
configured threshold and no episode is currently active
(`samplesRead = numSamples` is the IDLE state). -/
theorem c3_trigger_iff (th : ℚ) (cl : List ℚ → Option (ℕ → ℚ)) (s : Machine)
    (x : Sample) :
    (step th cl s x).samplesRead = 0 ↔
      (|x.ax| + |x.ay| + |x.az| ≥ th ∧ s.samplesRead = numSamples) := by
  rw [show (|x.ax| + |x.ay| + |x.az| ≥ th) = (aSum x ≥ th) by
    rw [aSum_eq_abs]]
  by_cases h1 : s.samplesRead = numSamples
  · by_cases h2 : aSum x ≥ th
    · rw [step_idle_trigger th cl s x h1 h2]
      simp [h1, h2]
    · rw [step_idle_skip th cl s x h1 h2]
      simp only [h1]
      have := numSamples_ne_zero
      constructor
      · intro h; exact absurd h this
      · intro h; exact absurd h.1 h2
  · by_cases h2 : s.samplesRead + 1 = numSamples
    · cases hcl : cl (window (writeRow s.buf s.samplesRead x)) with
      | none =>
        rw [step_fill_invoke_fail th cl s x h1 h2 hcl]
        constructor
        · intro h; dsimp only at h; omega
        · intro h; exact absurd h.2 h1
      | some out =>
        rw [step_fill_invoke_ok th cl s x out h1 h2 hcl]
        constructor
        · intro h; dsimp only at h; omega
        · intro h; exact absurd h.2 h1
    · rw [step_fill_mid th cl s x h1 h2]
      constructor
      · intro h; dsimp only at h; omega
      · intro h; exact absurd h.2 h1

/-- C5: while an episode is COLLECTING (`samplesRead < numSamples`), a poll
never starts a new episode: the counter advances by exactly one (never
resetting to 0, so the trigger is never acted on while collecting and at
most one episode is active), and only row `samplesRead` of the window is
written, so the windows of consecutive episodes never overlap. -/
theorem c5_no_trigger_while_collecting (th : ℚ)
    (cl : List ℚ → Option (ℕ → ℚ)) (s : Machine) (x : Sample)
    (h : s.samplesRead < numSamples) :
    ((step th cl s x).samplesRead = s.samplesRead + 1
     ∧ (step th cl s x).samplesRead ≠ 0
     ∧ (∀ j, j < 3 * s.samplesRead → (step th cl s x).buf j = s.buf j)
     ∧ (∀ j, 3 * s.samplesRead + 3 ≤ j →
         (step th cl s x).buf j = s.buf j)) := by
  have h1 : s.samplesRead ≠ numSamples := by omega
  have hlo : ∀ j, j < 3 * s.samplesRead →
      writeRow s.buf s.samplesRead x j = s.buf j :=
    fun j hj => writeRow_lt s.buf s.samplesRead x j hj
  have hhi : ∀ j, 3 * s.samplesRead + 3 ≤ j →
      writeRow s.buf s.samplesRead x j = s.buf j :=
    fun j hj => writeRow_ge s.buf s.samplesRead x j hj
  by_cases h2 : s.samplesRead + 1 = numSamples
  · cases hcl : cl (window (writeRow s.buf s.samplesRead x)) with
    | none =>
      rw [step_fill_invoke_fail th cl s x h1 h2 hcl]
      exact ⟨rfl, by dsimp only; omega, hlo, hhi⟩
    | some out =>
      rw [step_fill_invoke_ok th cl s x out h1 h2 hcl]
      exact ⟨rfl, by dsimp only; omega, hlo, hhi⟩
  · rw [step_fill_mid th cl s x h1 h2]
    exact ⟨rfl, by dsimp only; omega, hlo, hhi⟩

/-- C5 witness at a concrete collecting state. -/
theorem c5_no_trigger_while_collecting_witness :
    ((step accelerationThreshold clZero
        { initMachine with samplesRead := 0 } sampleZero).samplesRead =
          ({ initMachine with samplesRead := 0 } : Machine).samplesRead + 1
     ∧ (step accelerationThreshold clZero
        { initMachine with samplesRead := 0 } sampleZero).samplesRead ≠ 0
     ∧ (∀ j, j < 3 * ({ initMachine with samplesRead := 0 } :
           Machine).samplesRead →
         (step accelerationThreshold clZero
            { initMachine with samplesRead := 0 } sampleZero).buf j =
           ({ initMachine with samplesRead := 0 } : Machine).buf j)
     ∧ (∀ j, 3 * ({ initMachine with samplesRead := 0 } :
           Machine).samplesRead + 3 ≤ j →
         (step accelerationThreshold clZero
            { initMachine with samplesRead := 0 } sampleZero).buf j =
           ({ initMachine with samplesRead := 0 } : Machine).buf j)) :=
  c5_no_trigger_while_collecting accelerationThreshold clZero
    { initMachine with samplesRead := 0 } sampleZero
    (show (0 : ℕ) < numSamples by norm_num [numSamples])

/-- C9: with the source's default threshold (0), every sample's L1
acceleration norm meets the threshold, so whenever the machine is IDLE the
very next polled sample starts an episode: trigger filtering is effectively
disabled. -/
theorem c9_default_threshold_always_triggers :
    (∀ x : Sample, |x.ax| + |x.ay| + |x.az| ≥ accelerationThreshold)
    ∧ ∀ (cl : List ℚ → Option (ℕ → ℚ)) (s : Machine) (x : Sample),
        s.samplesRead = numSamples →
        (step accelerationThreshold cl s x).samplesRead = 0 := by
  have key : ∀ x : Sample,
      |x.ax| + |x.ay| + |x.az| ≥ accelerationThreshold := by
    intro x
    rw [accelerationThreshold]
    positivity
  refine ⟨key, fun cl s x h1 => ?_⟩
  rw [step_idle_trigger accelerationThreshold cl s x h1
    (by rw [aSum_eq_abs]; exact key x)]

/-- C9 witness at a concrete idle state. -/
theorem c9_default_threshold_always_triggers_witness :
    (|sampleZero.ax| + |sampleZero.ay| + |sampleZero.az| ≥
        accelerationThreshold)
    ∧ (step accelerationThreshold clZero initMachine
        sampleZero).samplesRead = 0 :=
  ⟨c9_default_threshold_always_triggers.1 sampleZero,
   c9_default_threshold_always_triggers.2 clZero initMachine sampleZero rfl⟩

/-- C10: every poll keeps the invariant `samplesRead ≤ numSamples`, and the
flattened input tensor is never written at or beyond index
`3 * numSamples = 600`: all writes land inside the `numSamples × 3` input
region. -/
theorem c10_writes_in_bounds (th : ℚ) (cl : List ℚ → Option (ℕ → ℚ))
    (s : Machine) (x : Sample) (h : s.samplesRead ≤ numSamples) :
    ((step th cl s x).samplesRead ≤ numSamples
     ∧ ∀ j, 3 * numSamples ≤ j → (step th cl s x).buf j = s.buf j) := by
  by_cases h1 : s.samplesRead = numSamples
  · by_cases h2 : aSum x ≥ th
    · rw [step_idle_trigger th cl s x h1 h2]
      exact ⟨by dsimp only; omega, fun j _ => rfl⟩
    · rw [step_idle_skip th cl s x h1 h2]
      exact ⟨h, fun j _ => rfl⟩
  · have hge : ∀ j, 3 * numSamples ≤ j →
        writeRow s.buf s.samplesRead x j = s.buf j :=
      fun j hj => writeRow_ge s.buf s.samplesRead x j (by omega)
    by_cases h2 : s.samplesRead + 1 = numSamples
    · cases hcl : cl (window (writeRow s.buf s.samplesRead x)) with
      | none =>
        rw [step_fill_invoke_fail th cl s x h1 h2 hcl]
        exact ⟨by dsimp only; omega, hge⟩
      | some out =>
        rw [step_fill_invoke_ok th cl s x out h1 h2 hcl]
        exact ⟨by dsimp only; omega, hge⟩
    · rw [step_fill_mid th cl s x h1 h2]
      exact ⟨by dsimp only; omega, hge⟩

/-- C10 witness at a concrete state. -/
theorem c10_writes_in_bounds_witness :
    ((step accelerationThreshold clZero initMachine
        sampleZero).samplesRead ≤ numSamples
     ∧ ∀ j, 3 * numSamples ≤ j →
        (step accelerationThreshold clZero initMachine sampleZero).buf j =
          initMachine.buf j) :=
  c10_writes_in_bounds accelerationThreshold clZero initMachine sampleZero
    le_rfl

/-- C1: the flattened window handed to the classifier always has exactly
`3 * numSamples` entries (`numSamples` rows of 3 gyroscope values — never
more, never fewer), and over an episode (a run started with a freshly
reset counter, fed at most `numSamples` samples) `Invoke` is called
exactly once if and only if the collected count reaches `numSamples`;
a partially filled window is never submitted. -/
theorem c1_invoke_exactly_on_full_window (th : ℚ)
    (cl : List ℚ → Option (ℕ → ℚ)) (xs : List Sample) (s : Machine)
    (hh : s.halted = false) (h0 : s.samplesRead = 0)
    (hlen : xs.length ≤ numSamples) :
    ((run th cl s xs).invokes =
       s.invokes + (if xs.length = numSamples then 1 else 0)
     ∧ ∀ b : ℕ → ℚ, (window b).length = 3 * numSamples) := by
  constructor
  · rcases lt_or_eq_of_le hlen with hlt | heq
    · rw [if_neg (by omega)]
      exact (run_fill_under th cl xs s hh (by omega)).2.2.1
    · rw [if_pos heq]
      have hne : xs ≠ [] := by
        intro hcon
        rw [hcon] at heq
        simp only [List.length_nil] at heq
        exact numSamples_ne_zero heq.symm
      exact (run_fill_exact th cl xs s hh hne (by omega)).2.2.1
  · intro b
    exact List.length_ofFn _

/-- C1 witness: a concrete full episode of `numSamples` all-zero samples. -/
theorem c1_invoke_exactly_on_full_window_witness :
    ((run accelerationThreshold clZero
        { initMachine with samplesRead := 0 }
        (List.replicate numSamples sampleZero)).invokes =
       ({ initMachine with samplesRead := 0 } : Machine).invokes +
         (if (List.replicate numSamples sampleZero).length = numSamples
          then 1 else 0)
     ∧ ∀ b : ℕ → ℚ, (window b).length = 3 * numSamples) :=
  c1_invoke_exactly_on_full_window accelerationThreshold clZero
    (List.replicate numSamples sampleZero)
    { initMachine with samplesRead := 0 } rfl rfl
    (by rw [List.length_replicate])

/-- C2: over an episode (run started with a freshly reset counter), the
i-th polled sample's gyroscope channels land at flattened indices
`3i`, `3i+1`, `3i+2` of the input tensor, in arrival order — no
reordering, duplication or drops — and only the gyroscope channels enter
the window. -/
theorem c2_rows_are_gyro_in_order (th : ℚ) (cl : List ℚ → Option (ℕ → ℚ))
    (xs : List Sample) (s : Machine) (hh : s.halted = false)
    (h0 : s.samplesRead = 0) (hlen : xs.length ≤ numSamples)
    (i : ℕ) (hi : i < xs.length) :
    ((run th cl s xs).buf (3 * i) = (xs.get ⟨i, hi⟩).gx
     ∧ (run th cl s xs).buf (3 * i + 1) = (xs.get ⟨i, hi⟩).gy
     ∧ (run th cl s xs).buf (3 * i + 2) = (xs.get ⟨i, hi⟩).gz) := by
  have hbuf : (run th cl s xs).buf = writeRows s.buf s.samplesRead xs := by
    rcases lt_or_eq_of_le hlen with hlt | heq
    · exact (run_fill_under th cl xs s hh (by omega)).2.1
    · have hne : xs ≠ [] := by
        intro hcon
        rw [hcon] at heq
        simp only [List.length_nil] at heq
        exact numSamples_ne_zero heq.symm
      exact (run_fill_exact th cl xs s hh hne (by omega)).2.1
  rw [hbuf, h0]
  have h := writeRows_get xs s.buf 0 i hi
  simpa using h

/-- C2 witness: one concrete sample with distinct channels lands, gyro
channels only, at indices 0, 1, 2. -/
theorem c2_rows_are_gyro_in_order_witness :
    ((run accelerationThreshold clZero
        { initMachine with samplesRead := 0 } [⟨7, 8, 9, 4, 5, 6⟩]).buf
          (3 * 0) =
          (([⟨7, 8, 9, 4, 5, 6⟩] : List Sample).get ⟨0, by simp⟩).gx
     ∧ (run accelerationThreshold clZero
        { initMachine with samplesRead := 0 } [⟨7, 8, 9, 4, 5, 6⟩]).buf
          (3 * 0 + 1) =
          (([⟨7, 8, 9, 4, 5, 6⟩] : List Sample).get ⟨0, by simp⟩).gy
     ∧ (run accelerationThreshold clZero
        { initMachine with samplesRead := 0 } [⟨7, 8, 9, 4, 5, 6⟩]).buf
          (3 * 0 + 2) =
          (([⟨7, 8, 9, 4, 5, 6⟩] : List Sample).get ⟨0, by simp⟩).gz) :=
  c2_rows_are_gyro_in_order accelerationThreshold clZero
    [⟨7, 8, 9, 4, 5, 6⟩] { initMachine with samplesRead := 0 } rfl rfl
    (by norm_num [numSamples]) 0 (by simp)

/-- C6: if `Invoke` fails on a full window, the step prints exactly the
observable error line `"Invoke failed!"` (no score report, no zero-filled
output), halts, and no further samples are ever processed: every future
stream leaves the machine unchanged. -/
theorem c6_invoke_failure_halts (th : ℚ) (cl : List ℚ → Option (ℕ → ℚ))
    (s : Machine) (x : Sample) (h1 : s.samplesRead ≠ numSamples)
    (h2 : s.samplesRead + 1 = numSamples)
    (hcl : cl (window (writeRow s.buf s.samplesRead x)) = none) :
    ((step th cl s x).halted = true
     ∧ (step th cl s x).log = s.log ++ ["Invoke failed!"]
     ∧ ∀ ys : List Sample,
         run th cl (step th cl s x) ys = step th cl s x) := by
  rw [step_fill_invoke_fail th cl s x h1 h2 hcl]
  exact ⟨rfl, rfl, fun ys => run_of_halted th cl _ rfl ys⟩

/-- C6 witness: a concrete failing invocation at the last row. -/
theorem c6_invoke_failure_halts_witness :
    ((step accelerationThreshold clFail
        { initMachine with samplesRead := 199 } sampleZero).halted = true
     ∧ (step accelerationThreshold clFail
        { initMachine with samplesRead := 199 } sampleZero).log =
          ({ initMachine with samplesRead := 199 } : Machine).log ++
            ["Invoke failed!"]
     ∧ ∀ ys : List Sample,
         run accelerationThreshold clFail
           (step accelerationThreshold clFail
             { initMachine with samplesRead := 199 } sampleZero) ys =
           step accelerationThreshold clFail
             { initMachine with samplesRead := 199 } sampleZero) :=
  c6_invoke_failure_halts accelerationThreshold clFail
    { initMachine with samplesRead := 199 } sampleZero
    (show (199 : ℕ) ≠ numSamples by norm_num [numSamples])
    (show (199 : ℕ) + 1 = numSamples by norm_num [numSamples]) rfl

/-- C7: if the IMU fails to initialise, or the model schema version
mismatches, `setup` halts with its own distinct error message before any
episode: the whole program polls no sample, invokes no inference, and
prints nothing but the one error line. -/
theorem c7_startup_failure_halts (c : SetupCfg) (th : ℚ)
    (cl : List ℚ → Option (ℕ → ℚ)) (xs : List Sample)
    (h : c.imuOk = false ∨ c.modelVersion ≠ c.schemaVersion) :
    ∃ msg, setup c = SetupResult.haltedWith msg
      ∧ (program c th cl xs).halted = true
      ∧ (program c th cl xs).polled = 0
      ∧ (program c th cl xs).invokes = 0
      ∧ (program c th cl xs).log = [msg]
      ∧ (c.imuOk = false → msg = "Failed to initialize IMU!")
      ∧ (c.imuOk = true → msg = "Model schema mismatch!")
      ∧ ("Failed to initialize IMU!" : String) ≠ "Model schema mismatch!" := by
  have hdist : ("Failed to initialize IMU!" : String) ≠
      "Model schema mismatch!" := by decide
  cases himu : c.imuOk with
  | false =>
    have hs : setup c = SetupResult.haltedWith "Failed to initialize IMU!" := by
      simp [setup, himu]
    refine ⟨"Failed to initialize IMU!", hs, ?_, ?_, ?_, ?_,
      fun _ => rfl, ?_, hdist⟩
    · simp [program, hs]
    · simp [program, hs, initMachine]
    · simp [program, hs, initMachine]
    · simp [program, hs]
    · intro hcon; exact absurd hcon (by decide)
  | true =>
    have hv : c.modelVersion ≠ c.schemaVersion := by
      rcases h with hcon | hv
      · rw [himu] at hcon; exact absurd hcon (by decide)
      · exact hv
    have hs : setup c = SetupResult.haltedWith "Model schema mismatch!" := by
      simp [setup, himu, hv]
    refine ⟨"Model schema mismatch!", hs, ?_, ?_, ?_, ?_,
      ?_, fun _ => rfl, hdist⟩
    · simp [program, hs]
    · simp [program, hs, initMachine]
    · simp [program, hs, initMachine]
    · simp [program, hs]
    · intro hcon; exact absurd hcon (by decide)

/-- A concrete startup environment whose IMU fails to initialise. -/
def cfgBadIMU : SetupCfg :=
  { imuOk := false, modelVersion := 3, schemaVersion := 3, outputLen := 6 }

/-- C7 witness: concrete startup with a failed IMU. -/
theorem c7_startup_failure_halts_witness :
    ∃ msg, setup cfgBadIMU = SetupResult.haltedWith msg
      ∧ (program cfgBadIMU accelerationThreshold clZero []).halted = true
      ∧ (program cfgBadIMU accelerationThreshold clZero []).polled = 0
      ∧ (program cfgBadIMU accelerationThreshold clZero []).invokes = 0
      ∧ (program cfgBadIMU accelerationThreshold clZero []).log = [msg]
      ∧ (cfgBadIMU.imuOk = false → msg = "Failed to initialize IMU!")
      ∧ (cfgBadIMU.imuOk = true → msg = "Model schema mismatch!")
      ∧ ("Failed to initialize IMU!" : String) ≠ "Model schema mismatch!" :=
  c7_startup_failure_halts cfgBadIMU accelerationThreshold clZero []
    (Or.inl rfl)

/-- C8 counterexample: startup performs no label-table/output-length
consistency check — `setup` succeeds for a model whose output tensor has 5
entries even though the label table has `NUM_GAITS = 6`, so a mismatch is
not "caught at startup". -/
theorem c8_counterexample_no_startup_check :
    setup { imuOk := true, modelVersion := 3, schemaVersion := 3,
              outputLen := 5 } = SetupResult.ok
    ∧ (5 : ℕ) ≠ NUM_GAITS := by
  constructor
  · simp [setup]
  · norm_num [NUM_GAITS]

/-- C8 (amended): after every successful inference the lines appended to
the log are exactly one per gait class in label-table order — `NUM_GAITS`
lines of `label ++ ": " ++` the score printed to 6 decimal places —
followed by one blank line, and the label table has exactly `NUM_GAITS = 6`
entries; however no startup check compares the label table with the
classifier's output length: `setup` succeeds regardless of `outputLen`. -/
theorem c8_report_format (th : ℚ) (cl : List ℚ → Option (ℕ → ℚ))
    (s : Machine) (x : Sample) (out : ℕ → ℚ)
    (h1 : s.samplesRead ≠ numSamples) (h2 : s.samplesRead + 1 = numSamples)
    (hcl : cl (window (writeRow s.buf s.samplesRead x)) = some out) :
    ((step th cl s x).log =
       s.log ++ (((List.range NUM_GAITS).map fun i =>
         GAITS.getD i "" ++ ": " ++ fmt6 (out i)) ++ [""])
     ∧ GAITS.length = NUM_GAITS
     ∧ (((List.range NUM_GAITS).map fun i =>
         GAITS.getD i "" ++ ": " ++ fmt6 (out i)) ++ [""]).length =
         NUM_GAITS + 1
     ∧ ∀ c : SetupCfg, c.imuOk = true → c.modelVersion = c.schemaVersion →
         setup c = SetupResult.ok) := by
  rw [step_fill_invoke_ok th cl s x out h1 h2 hcl]
  refine ⟨rfl, by simp [GAITS, NUM_GAITS], by simp, fun c hi hv => ?_⟩
  simp [setup, hi, hv]

/-- C8 witness: a concrete successful inference with all-zero scores. -/
theorem c8_report_format_witness :
    ((step accelerationThreshold clZero
        { initMachine with samplesRead := 199 } sampleZero).log =
       ({ initMachine with samplesRead := 199 } : Machine).log ++
         (((List.range NUM_GAITS).map fun i =>
           GAITS.getD i "" ++ ": " ++ fmt6 ((fun _ => (0 : ℚ)) i)) ++ [""])
     ∧ GAITS.length = NUM_GAITS
     ∧ (((List.range NUM_GAITS).map fun i =>
         GAITS.getD i "" ++ ": " ++ fmt6 ((fun _ => (0 : ℚ)) i)) ++
           [""]).length = NUM_GAITS + 1
     ∧ ∀ c : SetupCfg, c.imuOk = true → c.modelVersion = c.schemaVersion →
         setup c = SetupResult.ok) :=
  c8_report_format accelerationThreshold clZero
    { initMachine with samplesRead := 199 } sampleZero (fun _ => (0 : ℚ))
    (show (199 : ℕ) ≠ numSamples by norm_num [numSamples])
    (show (199 : ℕ) + 1 = numSamples by norm_num [numSamples]) rfl

/-- C4 counterexample: a full concrete episode — one triggering poll then
`numSamples` collecting polls against an always-succeeding engine —
completes exactly one inference, after which the machine is back at the
point where the next trigger is evaluated with `samplesRead` equal to
`numSamples` (the IDLE sentinel), not 0: the counter does not return to 0
after inference; it is reset only when the next trigger fires. -/
theorem c4_counterexample :
    ((run accelerationThreshold clZero initMachine
        (sampleZero :: List.replicate numSamples sampleZero)).invokes = 1
     ∧ (run accelerationThreshold clZero initMachine
        (sampleZero :: List.replicate numSamples sampleZero)).samplesRead
        ≠ 0
     ∧ (run accelerationThreshold clZero initMachine
        (sampleZero :: List.replicate numSamples sampleZero)).halted
        = false) := by
  have htrig : aSum sampleZero ≥ accelerationThreshold := by
    norm_num [aSum, fabs, sampleZero, accelerationThreshold]
  rw [run_cons, if_neg (by simp [initMachine]),
      step_idle_trigger accelerationThreshold clZero initMachine sampleZero
        rfl htrig]
  have hres := run_fill_exact accelerationThreshold clZero
    (List.replicate numSamples sampleZero)
    { initMachine with samplesRead := 0, polled := initMachine.polled + 1 }
    rfl (by simp [numSamples]) (by simp)
  obtain ⟨e1, _, e3, e4, _⟩ := hres
  refine ⟨?_, ?_, ?_⟩
  · rw [e3]; rfl
  · rw [e1]; exact numSamples_ne_zero
  · rw [e4]; rfl

/-- C4 (amended): after a completed successful inference the machine is
IDLE but the counter equals `numSamples` (the idle sentinel), not 0; the
counter is set to 0 exactly when the next trigger fires, so the buffer
index of the following episode starts again at 0. -/
theorem c4_idle_after_inference (th : ℚ) (cl : List ℚ → Option (ℕ → ℚ))
    (s : Machine) (x : Sample) (out : ℕ → ℚ) (hh : s.halted = false)
    (h1 : s.samplesRead ≠ numSamples) (h2 : s.samplesRead + 1 = numSamples)
    (hcl : cl (window (writeRow s.buf s.samplesRead x)) = some out) :
    ((step th cl s x).samplesRead = numSamples
     ∧ (step th cl s x).halted = false
     ∧ ∀ (s2 : Machine) (y : Sample), s2.samplesRead = numSamples →
         aSum y ≥ th → (step th cl s2 y).samplesRead = 0) := by
  rw [step_fill_invoke_ok th cl s x out h1 h2 hcl]
  refine ⟨by dsimp only; omega, by dsimp only; exact hh,
    fun s2 y hs2 hy => ?_⟩
  rw [step_idle_trigger th cl s2 y hs2 hy]

/-- C4 amended-claim witness at a concrete completed inference. -/
theorem c4_idle_after_inference_witness :
    ((step accelerationThreshold clZero
        { initMachine with samplesRead := 199 } sampleZero).samplesRead =
        numSamples
     ∧ (step accelerationThreshold clZero
        { initMachine with samplesRead := 199 } sampleZero).halted = false
     ∧ ∀ (s2 : Machine) (y : Sample), s2.samplesRead = numSamples →
         aSum y ≥ accelerationThreshold →
         (step accelerationThreshold clZero s2 y).samplesRead = 0) :=
  c4_idle_after_inference accelerationThreshold clZero
    { initMachine with samplesRead := 199 } sampleZero (fun _ => (0 : ℚ))
    rfl
    (show (199 : ℕ) ≠ numSamples by norm_num [numSamples])
    (show (199 : ℕ) + 1 = numSamples by norm_num [numSamples]) rfl

end MPUGait
